import Mathlib

/-!
Verification development for the VLSI physical-design back-end
(analytical placer, Abacus legaliser, grid router, verifier).

Shallow embedding conventions:
* Rust f64 values are modelled as exact rationals (ℚ); the claims settled
  here concern control flow, integer thresholds and algebraic structure,
  none of which depend on floating-point rounding at the scales involved.
* u16 / u32 / u8 machine integers are modelled as ℕ, with an explicit
  mod 2^16 where u16 addition can wrap (DenseGrid occupancy).
* Vec is modelled as List with List.set / List.getD; out-of-range writes
  are no-ops, out-of-range reads give the stated default, matching the
  guarded call sites in the source.
-/

set_option maxRecDepth 4000

/-- Grid coordinate from src/common/src/geom/coord.rs (x, y : u32; z : u8). -/
structure GridCoord where
  x : ℕ
  y : ℕ
  z : ℕ
  deriving DecidableEq, Repr

/-- Layer routing direction from src/common/src/db/core.rs. -/
inductive LayerDirection where
  | Vertical
  | Horizontal
  | Unknown
  deriving DecidableEq, Repr

namespace Router

/-- Wrap-around modulus of the u16 occupancy counter in GridNode. -/
def U16_MOD : ℕ := 65536

/-- Per-node state of the dense routing grid, src/router/src/grid/dense.rs
(occupancy, history : u16; cost_cache : f32, modelled as ℚ). -/
structure GridNode where
  occupancy : ℕ
  history : ℕ
  cost_cache : ℚ
  deriving DecidableEq, Repr

/-- Default GridNode: zero occupancy and history, cached cost 1.0. -/
def GridNode.default : GridNode := ⟨0, 0, 1⟩

/-- Dense 3-D routing grid, src/router/src/grid/dense.rs. -/
structure DenseGrid where
  width : ℕ
  height : ℕ
  layers : ℕ
  nodes : List GridNode
  obstacles : List Bool
  current_penalty : ℚ
  capacities : List ℕ
  deriving DecidableEq, Repr

namespace DenseGrid

/-- DenseGrid::new — all w·h·l nodes defaulted, no obstacles, penalty 1.0,
and, crucially, the same default capacity for every layer. -/
def new (width height layers default_capacity : ℕ) : DenseGrid :=
  let size := width * height * layers
  { width := width
    height := height
    layers := layers
    nodes := List.replicate size GridNode.default
    obstacles := List.replicate size false
    current_penalty := 1
    capacities := List.replicate layers default_capacity }

/-- DenseGrid::index — z-major linear index. -/
def index (g : DenseGrid) (c : GridCoord) : ℕ :=
  c.z * g.width * g.height + c.y * g.width + c.x

/-- Node at a coordinate (reads use the defaulted node when out of range;
the source only reads in bounds). -/
def nodeAt (g : DenseGrid) (c : GridCoord) : GridNode :=
  g.nodes.getD (g.index c) GridNode.default

/-- DenseGrid::update_cache_at — recompute the cached A* cost of one node
from its history, occupancy, the layer capacity and the current penalty. -/
def update_cache_at (g : DenseGrid) (idx layer : ℕ) : DenseGrid :=
  let cap : ℚ := (g.capacities.getD layer 0 : ℕ)
  let node := g.nodes.getD idx GridNode.default
  let base_cost : ℚ := 1 + (node.history : ℚ) * (1/10)
  let occ : ℚ := (node.occupancy : ℕ)
  let congestion_cost : ℚ := if cap ≤ occ then (occ - cap + 1) * g.current_penalty else 0
  { g with nodes := g.nodes.set idx { node with cost_cache := base_cost + congestion_cost } }

/-- DenseGrid::add_wire — increment the u16 occupancy (wrapping at 2^16)
and refresh the cost cache. -/
def add_wire (g : DenseGrid) (c : GridCoord) : DenseGrid :=
  let idx := g.index c
  let node := g.nodes.getD idx GridNode.default
  let g1 := { g with nodes := g.nodes.set idx { node with occupancy := (node.occupancy + 1) % U16_MOD } }
  g1.update_cache_at idx c.z

/-- DenseGrid::remove_wire — decrement the occupancy, guarded against
underflow, and refresh the cost cache. -/
def remove_wire (g : DenseGrid) (c : GridCoord) : DenseGrid :=
  let idx := g.index c
  let node := g.nodes.getD idx GridNode.default
  let occ2 := if 0 < node.occupancy then node.occupancy - 1 else node.occupancy
  let g1 := { g with nodes := g.nodes.set idx { node with occupancy := occ2 } }
  g1.update_cache_at idx c.z

/-- DenseGrid::is_obstacle — any coordinate outside the grid bounds is an
obstacle; in-bounds coordinates look up the obstacle flag. -/
def is_obstacle (g : DenseGrid) (c : GridCoord) : Bool :=
  if g.width ≤ c.x ∨ g.height ≤ c.y ∨ g.layers ≤ c.z then true
  else g.obstacles.getD (g.index c) false

/-- DenseGrid::is_congested — occupancy strictly above the layer capacity. -/
def is_congested (g : DenseGrid) (c : GridCoord) : Bool :=
  decide (g.capacities.getD c.z 0 < (g.nodeAt c).occupancy)

/-- DenseGrid::capacity — per-layer capacity lookup. -/
def capacity (g : DenseGrid) (c : GridCoord) : ℕ :=
  g.capacities.getD c.z 0

/-- In-bounds predicate for a coordinate on a grid. -/
def inBounds (g : DenseGrid) (c : GridCoord) : Prop :=
  c.x < g.width ∧ c.y < g.height ∧ c.z < g.layers

instance (g : DenseGrid) (c : GridCoord) : Decidable (inBounds g c) := by
  unfold inBounds; infer_instance

end DenseGrid

/-- Global routing configuration subset used by global_router::run
(src/common/src/util/config.rs, src/router/src/global_router.rs). -/
structure GlobalRoutingConfig where
  gcell_size : ℕ
  capacity : ℕ
  max_iterations : ℕ
  history_increment : ℚ
  initial_penalty : ℚ
  penalty_multiplier : ℚ
  heuristic_weight : ℚ
  margin : ℕ

/-- Coarse grid built at the top of global_router::run: a gcell_size ×
gcell_size grid, layer count defaulting to 2 on an empty layer stack, and
every layer given config.capacity (no special layer-0 capacity is set). -/
def grInitialGrid (config : GlobalRoutingConfig) (numLayers : ℕ) : DenseGrid :=
  let layers := if numLayers = 0 then 2 else numLayers
  DenseGrid.new config.gcell_size config.gcell_size layers config.capacity

/-- Early-stop test of the global router RRR loop,
src/router/src/global_router.rs line 228: iter > 100 && ripped < 50. -/
def grEarlyStop (iter ripped : ℕ) : Bool :=
  decide (100 < iter) && decide (ripped < 50)

/-- Stopping decision of one global-router RRR iteration: the loop breaks
when the iteration starts with zero conflicts, or ripped no net, or the
early-stop test fires (global_router.rs lines 95, 221, 228). -/
def grIterationStops (conflicts ripped iter : ℕ) : Bool :=
  if conflicts = 0 then true
  else if ripped = 0 then true
  else grEarlyStop iter ripped

/-- Scaled step move cost of one A* edge from position to neighbor,
src/router/src/algo/astar.rs lines 283-313, in the fixed-point units the
kernel accumulates (f64 values scaled by 100 before the integer cast).
Includes the extra un-scaled +1000.0 for steps staying on layer 0. -/
def stepMoveCost (layerDirs : List LayerDirection) (position neighbor endC : GridCoord) : ℚ :=
  let scale : ℚ := 100
  let layer_change_cost : ℚ := 10 * scale
  let wrong_dir_cost : ℚ := 25 * scale
  let base_move_cost : ℚ := 1 * scale
  let dist_to_end : ℤ :=
    ((neighbor.x : ℤ) - (endC.x : ℤ)).natAbs + ((neighbor.y : ℤ) - (endC.y : ℤ)).natAbs
  let is_near_pin : Bool := decide (dist_to_end < 2)
  let c : ℚ :=
    if position.z ≠ neighbor.z then
      if position.z = 0 ∨ neighbor.z = 0 then 1 else layer_change_cost
    else if position.z < layerDirs.length then
      match layerDirs.getD position.z LayerDirection.Unknown with
      | LayerDirection.Vertical =>
          if position.x ≠ neighbor.x then
            (if is_near_pin then base_move_cost * 2 else wrong_dir_cost)
          else base_move_cost
      | LayerDirection.Horizontal =>
          if position.y ≠ neighbor.y then
            (if is_near_pin then base_move_cost * 2 else wrong_dir_cost)
          else base_move_cost
      | LayerDirection.Unknown => base_move_cost
    else base_move_cost
  if position.z = 0 ∧ neighbor.z = 0 then c + 1000 else c

end Router

namespace Verifier

/-- Result-combining logic of the verifier entry point util/check.rs run
(lines 89-128): collect the diagnostic of each failed check in order
(shorts first, opens second) and, on any failure, return the collected
messages joined with a semicolon separator. -/
def run (shorts_result opens_result : Except String Unit) : Except String Unit :=
  let msgs : List String :=
    (match shorts_result with
     | Except.error e => [e]
     | Except.ok _ => []) ++
    (match opens_result with
     | Except.error e => [e]
     | Except.ok _ => [])
  if msgs.isEmpty then Except.ok () else Except.error (String.intercalate "; " msgs)

end Verifier

namespace Placer

/-- Convergence branch test of the Nesterov loop,
src/placer/src/solver/nesterov.rs line 103:
k > 500 && avg_disp < convergence_threshold && density_cost < 50000.0. -/
def convergenceTaken (k : ℕ) (avg_disp convergence_threshold density_cost : ℚ) : Bool :=
  decide (500 < k) && decide (avg_disp < convergence_threshold) && decide (density_cost < 50000)

end Placer

/-- Concrete global-routing configuration (spec defaults, gcell grid 2 for
compact test evaluation): capacity 1 on every layer. -/
def grTestConfig : Router.GlobalRoutingConfig :=
  { gcell_size := 2
    capacity := 1
    max_iterations := 300
    history_increment := 1/2
    initial_penalty := 1/2
    penalty_multiplier := 11/10
    heuristic_weight := 3/2
    margin := 10 }

/-- Concrete 1×1×1 grid whose single node sits at the u16 occupancy
maximum 65535 (the state reached after 65535 add_wire calls). -/
def satGrid : Router.DenseGrid :=
  { width := 1
    height := 1
    layers := 1
    nodes := [⟨65535, 0, 1⟩]
    obstacles := [false]
    current_penalty := 1
    capacities := [1] }

/-- Exact fraction representation of an f64 value: the value num / den.
All operations below keep den positive; no normalisation is performed, so
every operation reduces inside the kernel (ℚ itself normalises through
well-founded Nat.gcd, which the kernel cannot unfold). Comparisons are by
cross multiplication, i.e. by value. -/
structure Fr where
  num : ℤ
  den : ℕ
  deriving DecidableEq, Repr

namespace Fr

/-- Value of a fraction as a rational number (for statements). -/
def toQ (a : Fr) : ℚ := (a.num : ℚ) / (a.den : ℚ)

/-- Embed an integer. -/
def ofInt (n : ℤ) : Fr := ⟨n, 1⟩

/-- Addition of values. -/
def add (a b : Fr) : Fr := ⟨a.num * b.den + b.num * a.den, a.den * b.den⟩

/-- Subtraction of values. -/
def sub (a b : Fr) : Fr := ⟨a.num * b.den - b.num * a.den, a.den * b.den⟩

/-- Multiplication of values. -/
def mul (a b : Fr) : Fr := ⟨a.num * b.num, a.den * b.den⟩

/-- Division of values (division by zero gives 0, matching the ℚ
convention; the embedded code never divides by zero on the runs proved
about). -/
def div (a b : Fr) : Fr :=
  if b.num = 0 then ⟨0, 1⟩
  else ⟨a.num * b.den * Int.sign b.num, a.den * b.num.natAbs⟩

/-- Value comparison: strictly less. -/
def blt (a b : Fr) : Bool := decide (a.num * b.den < b.num * a.den)

/-- Value comparison: less or equal. -/
def ble (a b : Fr) : Bool := decide (a.num * b.den ≤ b.num * a.den)

/-- Value equality. -/
def beq (a b : Fr) : Bool := decide (a.num * b.den = b.num * a.den)

/-- Smaller of two values (f64::min). -/
def fmin (a b : Fr) : Fr := if blt a b then a else b

/-- Larger of two values (f64::max). -/
def fmax (a b : Fr) : Fr := if blt a b then b else a

/-- f64::clamp(lo, hi) for lo ≤ hi. -/
def clamp (v lo hi : Fr) : Fr := fmax lo (fmin v hi)

/-- Absolute value. -/
def fabs (a : Fr) : Fr := if a.num < 0 then ⟨-a.num, a.den⟩ else a

/-- Mathematical floor of the value (f64::floor composed with an integer
cast in the source). -/
def floor (a : Fr) : ℤ := Int.fdiv a.num (a.den : ℤ)

/-- Mathematical ceiling of the value. -/
def ceil (a : Fr) : ℤ := -Int.fdiv (-a.num) (a.den : ℤ)

/-- f64::round: half away from zero. -/
def round (a : Fr) : ℤ :=
  if 0 ≤ a.num then Int.fdiv (2 * a.num + a.den) (2 * a.den)
  else -Int.fdiv (2 * (-a.num) + a.den) (2 * a.den)

end Fr

/-- 2-D point from src/common/src/geom/point.rs, with f64 coordinates
modelled as exact fractions. -/
structure Point where
  x : Fr
  y : Fr
  deriving DecidableEq, Repr

instance : Inhabited Point := ⟨⟨⟨0, 1⟩, ⟨0, 1⟩⟩⟩

/-- Point addition (geom/point.rs Add impl). -/
def pAdd (a b : Point) : Point := ⟨Fr.add a.x b.x, Fr.add a.y b.y⟩

/-- Point subtraction (geom/point.rs Sub impl). -/
def pSub (a b : Point) : Point := ⟨Fr.sub a.x b.x, Fr.sub a.y b.y⟩

/-- Point scaling by a scalar (geom/point.rs Mul<f64> impl). -/
def pScale (a : Point) (s : Fr) : Point := ⟨Fr.mul a.x s, Fr.mul a.y s⟩

/-- Axis-aligned rectangle from src/common/src/geom/rect.rs. -/
structure Rect where
  min : Point
  max : Point
  deriving DecidableEq, Repr

/-- Rect width: max.x − min.x. -/
def Rect.width (r : Rect) : Fr := Fr.sub r.max.x r.min.x

/-- Rect height: max.y − min.y. -/
def Rect.height (r : Rect) : Fr := Fr.sub r.max.y r.min.y

/-- Cell attributes from src/common/src/db/core.rs used by the placer and
the legaliser (name, library name, macro flag and pin list omitted: the
embedded routines do not read them — the legaliser recomputes macro-ness
from the height). -/
structure CellData where
  width : Fr
  height : Fr
  is_fixed : Bool
  deriving DecidableEq, Repr

instance : Inhabited CellData := ⟨⟨⟨0, 1⟩, ⟨0, 1⟩, false⟩⟩

/-- Net record from src/common/src/db/core.rs (name and route segments
omitted: the embedded placer routines read only the weight and the pin
list). Pins are identified by their dense index. -/
structure NetData where
  weight : Fr
  pins : List ℕ
  deriving Repr

/-- Slice of NetlistDB (src/common/src/db/core.rs) consumed by the placer
and the legaliser: cell column, mutable position column, die rectangle,
nets and the pin columns (offset and owning cell). -/
structure NetlistDB where
  cells : List CellData
  positions : List Point
  die_area : Rect
  nets : List NetData := []
  pin_offsets : List Point := []
  pin_to_cell : List ℕ := []
  deriving Repr

/-- NetlistDB::num_cells. -/
def NetlistDB.num_cells (db : NetlistDB) : ℕ := db.cells.length

/-- NetlistDB::get_pin_position (db/core.rs line 108): the owning cell's
position plus the pin offset. -/
def NetlistDB.get_pin_position (db : NetlistDB) (pin : ℕ) (cell_pos : Point) : Point :=
  pAdd cell_pos (db.pin_offsets.getD pin default)

/-- Stable insertion of x into a list sorted by the boolean preorder le:
x is placed before the first element y with le x y (so among equal keys an
earlier-processed element stays first). -/
def insertLe {α : Type} (le : α → α → Bool) (x : α) : List α → List α
  | [] => [x]
  | y :: ys => if le x y then x :: y :: ys else y :: insertLe le x ys

/-- Stable insertion sort, modelling Rust slice::sort_by (a stable sort)
with comparator le. -/
def sortByLe {α : Type} (le : α → α → Bool) : List α → List α
  | [] => []
  | x :: xs => insertLe le x (sortByLe le xs)

namespace Abacus

/-- Cell padding constant of AbacusLegalizer::legalize (0.05). -/
def CELL_PADDING : Fr := ⟨1, 20⟩

/-- Abacus cluster (src/placer/src/legalize/abacus.rs lines 8-14). -/
structure Cluster where
  x : Fr
  width : Fr
  weight : Fr
  q : Fr
  member_cells : List ℕ
  deriving Repr

/-- Abacus subrow (abacus.rs lines 16-21). -/
structure SubRow where
  min_x : Fr
  max_x : Fr
  used_width : Fr
  cells : List ℕ
  deriving Repr

instance : Inhabited SubRow := ⟨⟨⟨0, 1⟩, ⟨0, 1⟩, ⟨0, 1⟩, []⟩⟩

/-- One step of the height histogram (abacus.rs lines 31-37): bump the
count of a key; a new key is appended. The source iterates a HashMap
whose order is unspecified; first-insertion order is used here, which
only matters when two distinct heights tie for the maximal count. -/
def bumpKey (k : ℤ) : List (ℤ × ℕ) → List (ℤ × ℕ)
  | [] => [(k, 1)]
  | (k2, n) :: rest => if k2 = k then (k2, n + 1) :: rest else (k2, n) :: bumpKey k rest

/-- Histogram of cell heights in 1/1000 units, heights above 0.001 only. -/
def heightCounts (cells : List CellData) : List (ℤ × ℕ) :=
  cells.foldl (fun acc cell =>
    if Fr.blt ⟨1, 1000⟩ cell.height then
      bumpKey (Fr.round (Fr.mul cell.height ⟨1000, 1⟩)) acc
    else acc) []

/-- Row height (abacus.rs lines 39-43): the most frequent non-trivial cell
height, 1.0 when there is none (max_by_key keeps the last maximum). -/
def rowHeightOf (cells : List CellData) : Fr :=
  match heightCounts cells with
  | [] => ⟨1, 1⟩
  | p :: rest =>
    let best := rest.foldl (fun b q2 => if b.2 ≤ q2.2 then q2 else b) p
    ⟨best.1, 1000⟩

/-- Macro test (abacus.rs line 55): height strictly above 1.5·row_height. -/
def isMacroH (row_height h : Fr) : Bool := Fr.blt (Fr.mul row_height ⟨3, 2⟩) h

/-- Number of rows (abacus.rs line 49): ceil(die height / row height),
saturating at 0 like the usize cast. -/
def numRowsOf (db : NetlistDB) : ℕ :=
  (Fr.ceil (Fr.div (Rect.height db.die_area) (rowHeightOf db.cells))).toNat

/-- Macro pre-legalisation (abacus.rs lines 75-90): snap each movable
macro to the nearest row boundary, clamp it into the die, record it as a
fixed rectangle. -/
def legalizeMacros (cells : List CellData) (die : Rect) (row_height : Fr)
    (macros : List ℕ) (ps : List Point) (rects : List Rect) :
    List Point × List Rect :=
  macros.foldl (fun st idx =>
    let ps1 := st.1
    let rects1 := st.2
    let cell := cells.getD idx default
    let pos := ps1.getD idx default
    let ideal_row := Fr.round (Fr.div (Fr.sub pos.y die.min.y) row_height)
    let y1 := Fr.add die.min.y (Fr.mul (Fr.ofInt ideal_row) row_height)
    let y2 := Fr.clamp y1 die.min.y (Fr.sub die.max.y cell.height)
    let x2 := Fr.clamp pos.x die.min.x (Fr.sub die.max.x cell.width)
    let npos : Point := ⟨x2, y2⟩
    (ps1.set idx npos,
     rects1 ++ [⟨npos, ⟨Fr.add npos.x cell.width, Fr.add npos.y cell.height⟩⟩]))
    (ps, rects)

/-- Blockage intervals of one row (abacus.rs lines 92-102): the x-extents
of the fixed rectangles whose floor-rounded row span covers the row. -/
def rowBlockages (die_min_y row_height : Fr) (rects : List Rect) (r : ℕ) :
    List (Fr × Fr) :=
  rects.filterMap (fun rect =>
    let start_row := Fr.floor (Fr.div (Fr.sub rect.min.y die_min_y) row_height)
    let end_row := Fr.floor (Fr.div (Fr.sub (Fr.sub rect.max.y ⟨1, 1000⟩) die_min_y) row_height)
    if start_row ≤ (r : ℤ) ∧ (r : ℤ) ≤ end_row then some (rect.min.x, rect.max.x)
    else none)

/-- Interval merging of sorted blockages (abacus.rs lines 109-121). -/
def mergeGo (curr : Fr × Fr) : List (Fr × Fr) → List (Fr × Fr)
  | [] => [curr]
  | next :: rest =>
    if Fr.blt next.1 (Fr.add curr.2 ⟨1, 1000⟩) then
      mergeGo (curr.1, Fr.fmax curr.2 next.2) rest
    else curr :: mergeGo next rest

/-- Interval merging entry point. -/
def mergeBlockages : List (Fr × Fr) → List (Fr × Fr)
  | [] => []
  | b :: bs => mergeGo b bs

/-- Subrows of one row from its merged blockages (abacus.rs 123-145):
maximal free gaps wider than the 0.001 tolerance. -/
def buildSubRows (die_min_x die_max_x : Fr) (merged : List (Fr × Fr)) :
    List SubRow :=
  let st := merged.foldl (fun (st : List SubRow × Fr) b =>
    let acc2 :=
      if Fr.blt (Fr.add st.2 ⟨1, 1000⟩) b.1 then
        st.1 ++ [⟨st.2, b.1, ⟨0, 1⟩, []⟩]
      else st.1
    (acc2, Fr.fmax st.2 b.2)) ([], die_min_x)
  if Fr.blt st.2 (Fr.sub die_max_x ⟨1, 1000⟩) then
    st.1 ++ [⟨st.2, die_max_x, ⟨0, 1⟩, []⟩]
  else st.1

/-- Best subrow of one row for a cell (abacus.rs lines 179-192): among the
subrows with enough remaining width, the first index whose centre is
nearest the cell's ideal x. -/
def bestSub (cell_total_w posx : Fr) (subs : List SubRow) : Option ℕ :=
  (subs.foldl (fun (st : ℕ × Option (ℕ × Fr)) sub =>
    let fits := Fr.ble (Fr.add sub.used_width cell_total_w) (Fr.sub sub.max_x sub.min_x)
    let acc2 :=
      if fits then
        let center := Fr.div (Fr.add sub.min_x sub.max_x) ⟨2, 1⟩
        let dist := Fr.fabs (Fr.sub posx center)
        match st.2 with
        | none => some (st.1, dist)
        | some (k0, d0) => if Fr.blt dist d0 then some (st.1, dist) else some (k0, d0)
      else st.2
    (st.1 + 1, acc2)) (0, none)).2.map Prod.fst

/-- Search order of the ±50-row band (abacus.rs lines 170-173): offset 0,
then each larger offset with sign +1 before −1. -/
def candidateRows (ideal : ℤ) : List ℤ :=
  (List.range 51).flatMap (fun offset =>
    if offset = 0 then [ideal] else [ideal + (offset : ℤ), ideal - (offset : ℤ)])

/-- First row in the search band offering a subrow with capacity
(abacus.rs lines 170-204); rows outside [0, num_rows) are skipped. -/
def findSlot (rows : List (List SubRow)) (num_rows : ℕ) (cell_total_w posx : Fr)
    (ideal : ℤ) : Option (ℕ × ℕ) :=
  (candidateRows ideal).foldl (fun found r_idx =>
    match found with
    | some _ => found
    | none =>
      if r_idx < 0 ∨ (num_rows : ℤ) ≤ r_idx then none
      else
        match bestSub cell_total_w posx (rows.getD r_idx.toNat []) with
        | some k => some (r_idx.toNat, k)
        | none => none) none

/-- Assignment of one standard cell (abacus.rs lines 162-212): record the
cell into the found subrow and account its width; otherwise fall back to
the first subrow of the clamped ideal row without width accounting, or
leave the cell unrecorded when that row has no subrows. -/
def assignCell (cells : List CellData) (ps : List Point) (row_height die_min_y : Fr)
    (num_rows : ℕ) (rows : List (List SubRow)) (i : ℕ) : List (List SubRow) :=
  let cell := cells.getD i default
  let pos := ps.getD i default
  let ideal : ℤ := Fr.round (Fr.div (Fr.sub pos.y die_min_y) row_height)
  let cell_total_w := Fr.add cell.width CELL_PADDING
  match findSlot rows num_rows cell_total_w pos.x ideal with
  | some (r, k) =>
    let subs := rows.getD r []
    let sub := subs.getD k default
    rows.set r (subs.set k
      { sub with cells := sub.cells ++ [i]
                 used_width := Fr.add sub.used_width cell_total_w })
  | none =>
    let r := (min (max ideal 0) ((num_rows : ℤ) - 1)).toNat
    match rows.getD r [] with
    | [] => rows
    | s0 :: restSubs => rows.set r ({ s0 with cells := s0.cells ++ [i] } :: restSubs)

/-- AbacusLegalizer::collapse (abacus.rs lines 274-305) on the cluster
stack stored most-recent first (the source manipulates the tail of a
Vec). The fuel argument is instantiated with the stack length, an upper
bound on the number of merges, so the recursion is structural. -/
def collapseGo (min_x : Fr) : ℕ → List Cluster → List Cluster
  | _, [] => []
  | 0, l => l
  | fuel + 1, last0 :: rest =>
    let last := if Fr.blt last0.x min_x then { last0 with x := min_x } else last0
    match rest with
    | [] => [last]
    | prev :: rest2 =>
      if Fr.blt last.x (Fr.add prev.x prev.width) then
        let q2 := Fr.add prev.q (Fr.sub last.q (Fr.mul last.weight prev.width))
        let w2 := Fr.add prev.weight last.weight
        collapseGo min_x fuel
          ({ x := Fr.div q2 w2
             width := Fr.add prev.width last.width
             weight := w2
             q := q2
             member_cells := prev.member_cells ++ last.member_cells } :: rest2)
      else last :: prev :: rest2

/-- Collapse entry point. -/
def collapse (min_x : Fr) (clusters : List Cluster) : List Cluster :=
  collapseGo min_x clusters.length clusters

/-- Left-limit pass (abacus.rs lines 243-249): sweep left to right keeping
each cluster at or right of the running limit. -/
def leftPass (left_limit : Fr) : List Cluster → List Cluster
  | [] => []
  | c0 :: rest =>
    let c := if Fr.blt c0.x left_limit then { c0 with x := left_limit } else c0
    c :: leftPass (Fr.add c.x c.width) rest

/-- Right-limit pass (abacus.rs lines 251-257), on the reversed cluster
list: sweep right to left pushing overhanging clusters left. -/
def rightPassRev (right_limit : Fr) : List Cluster → List Cluster
  | [] => []
  | c0 :: rest =>
    let c := if Fr.blt right_limit (Fr.add c0.x c0.width) then
               { c0 with x := Fr.sub right_limit c0.width }
             else c0
    c :: rightPassRev c.x rest

/-- In-cluster layout (abacus.rs lines 259-269): place member cells at
consecutive x positions spaced by width + padding, clamped to the subrow
start, on the row's y. -/
def layoutGo (min_x row_y : Fr) (cells : List CellData) :
    List ℕ → Fr → List Point → List Point
  | [], _, ps => ps
  | idx :: rest, current_x, ps =>
    let cx := Fr.fmax current_x min_x
    layoutGo min_x row_y cells rest
      (Fr.add cx (Fr.add (cells.getD idx default).width CELL_PADDING))
      (ps.set idx ⟨cx, row_y⟩)

/-- Packing of one subrow (abacus.rs lines 217-270): sort its recorded
cells by current x, grow and collapse clusters one cell at a time, run the
left- then the right-limit pass, and lay the clusters out. -/
def packSubRow (cells : List CellData) (row_y : Fr) (sub : SubRow)
    (ps : List Point) : List Point :=
  if sub.cells.isEmpty then ps
  else
    let sorted := sortByLe (fun a b =>
      Fr.ble (ps.getD a default).x (ps.getD b default).x) sub.cells
    let clustersRev := sorted.foldl (fun cs cell_idx =>
      let cell_w := Fr.add (cells.getD cell_idx default).width CELL_PADDING
      let target_x := (ps.getD cell_idx default).x
      collapse sub.min_x
        ({ x := target_x, width := cell_w, weight := ⟨1, 1⟩, q := target_x,
           member_cells := [cell_idx] } :: cs)) []
    let clusters1 := leftPass sub.min_x clustersRev.reverse
    let clusters2 := (rightPassRev sub.max_x clusters1.reverse).reverse
    clusters2.foldl (fun ps2 cl => layoutGo sub.min_x row_y cells cl.member_cells cl.x ps2) ps

/-- Packing of all rows (abacus.rs lines 214-271). -/
def packRows (cells : List CellData) (die_min_y row_height : Fr) (num_rows : ℕ)
    (rows : List (List SubRow)) (ps : List Point) : List Point :=
  (List.range num_rows).foldl (fun ps1 (r : ℕ) =>
    let row_y := Fr.add die_min_y (Fr.mul (Fr.ofInt (r : ℤ)) row_height)
    (rows.getD r []).foldl (fun ps2 sub => packSubRow cells row_y sub ps2) ps1) ps

/-- Fixed-cell rectangles (abacus.rs lines 57-71). -/
def fixedRects (db : NetlistDB) : List Rect :=
  (List.range db.num_cells).filterMap (fun i =>
    let cell := db.cells.getD i default
    if cell.is_fixed then
      let pos := db.positions.getD i default
      some (⟨pos, ⟨Fr.add pos.x cell.width, Fr.add pos.y cell.height⟩⟩ : Rect)
    else none)

/-- Movable macros: non-fixed cells taller than 1.5·row_height, in index
order (abacus.rs lines 60-71). -/
def movableMacroList (db : NetlistDB) (row_height : Fr) : List ℕ :=
  (List.range db.num_cells).filter (fun i =>
    let cell := db.cells.getD i default
    !cell.is_fixed && isMacroH row_height cell.height)

/-- Movable macros sorted by x (abacus.rs line 73). -/
def macroSorted (db : NetlistDB) (row_height : Fr) : List ℕ :=
  sortByLe (fun a b =>
    Fr.ble (db.positions.getD a default).x (db.positions.getD b default).x)
    (movableMacroList db row_height)

/-- Positions and fixed rectangles after the macro pre-legalisation
(abacus.rs lines 57-90). -/
def macroPhase (db : NetlistDB) (row_height : Fr) : List Point × List Rect :=
  legalizeMacros db.cells db.die_area row_height (macroSorted db row_height)
    db.positions (fixedRects db)

/-- Subrows of every row before assignment (abacus.rs lines 92-146). -/
def initialRows (db : NetlistDB) (row_height : Fr) (num_rows : ℕ) :
    List (List SubRow) :=
  (List.range num_rows).map (fun r =>
    let bl := rowBlockages db.die_area.min.y row_height (macroPhase db row_height).2 r
    buildSubRows db.die_area.min.x db.die_area.max.x
      (mergeBlockages (sortByLe (fun a b => Fr.ble a.1 b.1) bl)))

/-- Standard cells: non-fixed, non-macro, in index order (abacus.rs lines
148-150). -/
def stdCellList (db : NetlistDB) (row_height : Fr) : List ℕ :=
  (List.range db.num_cells).filter (fun i =>
    let cell := db.cells.getD i default
    !cell.is_fixed && !isMacroH row_height cell.height)

/-- Standard cells sorted by rounded row then x (abacus.rs lines 152-160),
read from the post-macro positions. -/
def stdSortedList (db : NetlistDB) (row_height : Fr) : List ℕ :=
  let ps1 := (macroPhase db row_height).1
  let die_min_y := db.die_area.min.y
  sortByLe (fun a b =>
    let ra := Fr.round (Fr.div (Fr.sub (ps1.getD a default).y die_min_y) row_height)
    let rb := Fr.round (Fr.div (Fr.sub (ps1.getD b default).y die_min_y) row_height)
    decide (ra < rb) || (decide (ra = rb) &&
      Fr.ble (ps1.getD a default).x (ps1.getD b default).x))
    (stdCellList db row_height)

/-- Subrow contents after assigning every standard cell (abacus.rs lines
162-212). -/
def assignedRows (db : NetlistDB) (row_height : Fr) (num_rows : ℕ) :
    List (List SubRow) :=
  (stdSortedList db row_height).foldl
    (fun rows i => assignCell db.cells (macroPhase db row_height).1 row_height
      db.die_area.min.y num_rows rows i)
    (initialRows db row_height num_rows)

/-- AbacusLegalizer::legalize (src/placer/src/legalize/abacus.rs lines
28-272): row-height mode, macro pre-legalisation, per-row subrow
construction from merged blockages, banded subrow assignment of the
standard cells sorted by (row, x), and per-subrow Abacus packing. -/
def legalize (db : NetlistDB) : NetlistDB :=
  let row_height := rowHeightOf db.cells
  let num_rows := numRowsOf db
  if num_rows = 0 then db
  else
    { db with positions :=
        (packRows db.cells db.die_area.min.y row_height num_rows
          (assignedRows db row_height num_rows) (macroPhase db row_height).1) }

end Abacus

namespace Placer

/-- Running sums of one net's WA terms (wirelength.rs lines 34-42). -/
structure WaSums where
  sum_exp_x_pos : Fr
  sum_x_exp_x_pos : Fr
  sum_exp_x_neg : Fr
  sum_x_exp_x_neg : Fr
  sum_exp_y_pos : Fr
  sum_y_exp_y_pos : Fr
  sum_exp_y_neg : Fr
  sum_y_exp_y_neg : Fr

/-- compute_wa_gradient (src/placer/src/physics/wirelength.rs lines 4-95),
with f64::exp passed as the oracle expF. Returns the updated gradient
vector and the total WA wirelength. Nets with fewer than 2 pins are
skipped; for every other net each pin's gradient contribution is added to
the owning cell's gradient slot — with no is_fixed test. -/
def compute_wa_gradient (db : NetlistDB) (positions : List Point) (gamma : Fr)
    (expF : Fr → Fr) (gradients0 : List Point) : List Point × Fr :=
  let inv_gamma := Fr.div ⟨1, 1⟩ gamma
  db.nets.foldl (fun (st : List Point × Fr) net =>
    if net.pins.length < 2 then st
    else
      let pinPos : List Point := net.pins.map (fun pid =>
        db.get_pin_position pid (positions.getD (db.pin_to_cell.getD pid 0) default))
      let xs := pinPos.map Point.x
      let ys := pinPos.map Point.y
      let max_x := xs.foldl Fr.fmax (xs.headD ⟨0, 1⟩)
      let min_x := xs.foldl Fr.fmin (xs.headD ⟨0, 1⟩)
      let max_y := ys.foldl Fr.fmax (ys.headD ⟨0, 1⟩)
      let min_y := ys.foldl Fr.fmin (ys.headD ⟨0, 1⟩)
      let s := pinPos.foldl (fun (s : WaSums) p =>
        let exp_x_pos := expF (Fr.mul (Fr.sub p.x max_x) inv_gamma)
        let exp_x_neg := expF (Fr.mul (Fr.sub min_x p.x) inv_gamma)
        let exp_y_pos := expF (Fr.mul (Fr.sub p.y max_y) inv_gamma)
        let exp_y_neg := expF (Fr.mul (Fr.sub min_y p.y) inv_gamma)
        { sum_exp_x_pos := Fr.add s.sum_exp_x_pos exp_x_pos
          sum_x_exp_x_pos := Fr.add s.sum_x_exp_x_pos (Fr.mul p.x exp_x_pos)
          sum_exp_x_neg := Fr.add s.sum_exp_x_neg exp_x_neg
          sum_x_exp_x_neg := Fr.add s.sum_x_exp_x_neg (Fr.mul p.x exp_x_neg)
          sum_exp_y_pos := Fr.add s.sum_exp_y_pos exp_y_pos
          sum_y_exp_y_pos := Fr.add s.sum_y_exp_y_pos (Fr.mul p.y exp_y_pos)
          sum_exp_y_neg := Fr.add s.sum_exp_y_neg exp_y_neg
          sum_y_exp_y_neg := Fr.add s.sum_y_exp_y_neg (Fr.mul p.y exp_y_neg) })
        ⟨⟨0,1⟩, ⟨0,1⟩, ⟨0,1⟩, ⟨0,1⟩, ⟨0,1⟩, ⟨0,1⟩, ⟨0,1⟩, ⟨0,1⟩⟩
      let wa_x_pos := Fr.div s.sum_x_exp_x_pos s.sum_exp_x_pos
      let wa_x_neg := Fr.div s.sum_x_exp_x_neg s.sum_exp_x_neg
      let wa_y_pos := Fr.div s.sum_y_exp_y_pos s.sum_exp_y_pos
      let wa_y_neg := Fr.div s.sum_y_exp_y_neg s.sum_exp_y_neg
      let total_wl := Fr.add st.2
        (Fr.add (Fr.sub wa_x_pos wa_x_neg) (Fr.sub wa_y_pos wa_y_neg))
      let gradients2 := net.pins.foldl (fun gs pid =>
        let cid := db.pin_to_cell.getD pid 0
        let p := db.get_pin_position pid (positions.getD cid default)
        let exp_x_pos := expF (Fr.mul (Fr.sub p.x max_x) inv_gamma)
        let exp_x_neg := expF (Fr.mul (Fr.sub min_x p.x) inv_gamma)
        let exp_y_pos := expF (Fr.mul (Fr.sub p.y max_y) inv_gamma)
        let exp_y_neg := expF (Fr.mul (Fr.sub min_y p.y) inv_gamma)
        let grad_x := Fr.sub
          (Fr.div (Fr.mul (Fr.add ⟨1, 1⟩ (Fr.mul (Fr.sub p.x wa_x_pos) inv_gamma)) exp_x_pos)
            s.sum_exp_x_pos)
          (Fr.div (Fr.mul (Fr.sub ⟨1, 1⟩ (Fr.mul (Fr.sub p.x wa_x_neg) inv_gamma)) exp_x_neg)
            s.sum_exp_x_neg)
        let grad_y := Fr.sub
          (Fr.div (Fr.mul (Fr.add ⟨1, 1⟩ (Fr.mul (Fr.sub p.y wa_y_pos) inv_gamma)) exp_y_pos)
            s.sum_exp_y_pos)
          (Fr.div (Fr.mul (Fr.sub ⟨1, 1⟩ (Fr.mul (Fr.sub p.y wa_y_neg) inv_gamma)) exp_y_neg)
            s.sum_exp_y_neg)
        let old := gs.getD cid default
        gs.set cid ⟨Fr.add old.x (Fr.mul grad_x net.weight),
                    Fr.add old.y (Fr.mul grad_y net.weight)⟩) st.1
      (gradients2, total_wl)) (gradients0, ⟨0, 1⟩)

/-- Optimiser parameters (nesterov.rs lines 6-13). -/
structure NesterovParams where
  max_iterations : ℕ
  initial_learning_rate : Fr
  convergence_threshold : Fr
  wa_gamma : Fr
  target_density : Fr
  electro_force_multiplier : Fr

/-- apply_clamping (nesterov.rs lines 148-165): clamp every non-fixed
cell's position so its rectangle fits in the die; fixed cells are
skipped. -/
def apply_clamping (db : NetlistDB) (ps : List Point) : List Point :=
  ps.mapIdx (fun i p =>
    if (db.cells.getD i default).is_fixed then p
    else
      ⟨Fr.clamp p.x db.die_area.min.x (Fr.sub db.die_area.max.x (db.cells.getD i default).width),
       Fr.clamp p.y db.die_area.min.y (Fr.sub db.die_area.max.y (db.cells.getD i default).height)⟩)

/-- Average Manhattan displacement between successive x iterates
(nesterov.rs lines 85-89). -/
def avgDisp (xk xprev : List Point) : Fr :=
  let total := (xk.zip xprev).foldl (fun acc pq =>
    Fr.add acc (Fr.add (Fr.fabs (Fr.sub pq.1.x pq.2.x)) (Fr.fabs (Fr.sub pq.1.y pq.2.y))))
    ⟨0, 1⟩
  Fr.div total (Fr.ofInt (xk.length : ℤ))

/-- Convergence branch test (nesterov.rs line 103) at the Fr level used
inside the embedded loop: k > 500 && avg_disp < threshold &&
density_cost < 50000.0. -/
def convergenceTakenF (k : ℕ) (avg_disp threshold density_cost : Fr) : Bool :=
  decide (500 < k) && Fr.blt avg_disp threshold && Fr.blt density_cost ⟨50000, 1⟩

/-- Mutable state of the Nesterov loop (nesterov.rs lines 15-21, 70-71). -/
structure NesterovState where
  x_k : List Point
  x_prev : List Point
  y_k : List Point
  a_k : Fr
  step_size : Fr

/-- Main loop of NesterovOptimizer::optimize (nesterov.rs lines 73-145),
with PhysicsContext::compute_gradients passed as the oracle gradF
(gradient vector and density cost at the given positions) and f64::sqrt
as sqrtF. Note the gradient step x_next = y − g·step is mapped over every
cell; only the y reset and the clamping are gated on is_fixed. -/
def nesterovLoop (db : NetlistDB) (params : NesterovParams)
    (gradF : List Point → List Point × Fr) (sqrtF : Fr → Fr) :
    ℕ → ℕ → NesterovState → List Point
  | 0, _, st => apply_clamping db st.x_k
  | fuel + 1, k, st =>
    let gd := gradF st.y_k
    let density_cost := gd.2
    let avg := avgDisp st.x_k st.x_prev
    if convergenceTakenF k avg params.convergence_threshold density_cost then
      apply_clamping db st.x_k
    else
      let x_next0 := st.y_k.zipWith (fun y g => pSub y (pScale g st.step_size)) gd.1
      let x_next := apply_clamping db x_next0
      let a_next := Fr.div
        (Fr.add ⟨1, 1⟩ (sqrtF (Fr.add (Fr.mul (Fr.mul ⟨4, 1⟩ st.a_k) st.a_k) ⟨1, 1⟩))) ⟨2, 1⟩
      let momentum := Fr.div (Fr.sub st.a_k ⟨1, 1⟩) a_next
      let y1 := (List.range st.x_k.length).map (fun i =>
        if (db.cells.getD i default).is_fixed then st.x_k.getD i default
        else pAdd (x_next.getD i default)
          (pScale (pSub (x_next.getD i default) (st.x_k.getD i default)) momentum))
      let y2 := apply_clamping db y1
      let step2 := if 500 ≤ k then Fr.mul st.step_size ⟨9995, 10000⟩ else st.step_size
      nesterovLoop db params gradF sqrtF fuel (k + 1)
        { x_k := x_next, x_prev := st.x_k, y_k := y2, a_k := a_next, step_size := step2 }

/-- NesterovOptimizer::optimize (nesterov.rs lines 34-146): seed x from
the stored positions, jitter every non-fixed cell around the die centre
(the thread_rng draws are the oracle noise, one pair per cell index) with
clamping, then run the loop and store the final clamped x. -/
def optimize (params : NesterovParams) (db : NetlistDB)
    (gradF : List Point → List Point × Fr) (sqrtF : Fr → Fr)
    (noise : ℕ → Fr × Fr) : NetlistDB :=
  let center_x := Fr.div (Fr.add db.die_area.min.x db.die_area.max.x) ⟨2, 1⟩
  let center_y := Fr.div (Fr.add db.die_area.min.y db.die_area.max.y) ⟨2, 1⟩
  let x0 := db.positions.mapIdx (fun i pos =>
    if (db.cells.getD i default).is_fixed then pos
    else
      let cell := db.cells.getD i default
      ⟨Fr.clamp (Fr.add center_x (noise i).1) db.die_area.min.x
         (Fr.sub db.die_area.max.x cell.width),
       Fr.clamp (Fr.add center_y (noise i).2) db.die_area.min.y
         (Fr.sub db.die_area.max.y cell.height)⟩)
  let final := nesterovLoop db params gradF sqrtF params.max_iterations 0
    { x_k := x0, x_prev := x0, y_k := x0, a_k := ⟨1, 1⟩,
      step_size := params.initial_learning_rate }
  { db with positions := final }

end Placer

/-- Scenario S5 netlist: a 7×1 die holding three movable standard cells of
width 2 and height 1, all with ideal position x = 3 (the single row has
one subrow spanning [0, 7]). -/
def abacusS5Db : NetlistDB :=
  { cells := [⟨⟨2, 1⟩, ⟨1, 1⟩, false⟩, ⟨⟨2, 1⟩, ⟨1, 1⟩, false⟩, ⟨⟨2, 1⟩, ⟨1, 1⟩, false⟩]
    positions := [⟨⟨3, 1⟩, ⟨0, 1⟩⟩, ⟨⟨3, 1⟩, ⟨0, 1⟩⟩, ⟨⟨3, 1⟩, ⟨0, 1⟩⟩]
    die_area := ⟨⟨⟨0, 1⟩, ⟨0, 1⟩⟩, ⟨⟨7, 1⟩, ⟨1, 1⟩⟩⟩ }

/-- Netlist whose single row is fully covered by a fixed blockage: a 10×1
die, cell 0 fixed with width 10 at the origin, and one movable standard
cell (1×1) at (2, 0.3). No subrow exists, so the standard cell can be
recorded nowhere. -/
def abacusBlockedDb : NetlistDB :=
  { cells := [⟨⟨10, 1⟩, ⟨1, 1⟩, true⟩, ⟨⟨1, 1⟩, ⟨1, 1⟩, false⟩]
    positions := [⟨⟨0, 1⟩, ⟨0, 1⟩⟩, ⟨⟨2, 1⟩, ⟨3, 10⟩⟩]
    die_area := ⟨⟨⟨0, 1⟩, ⟨0, 1⟩⟩, ⟨⟨10, 1⟩, ⟨1, 1⟩⟩⟩ }

/-- Netlist for the fixed-cell frame test: cell 0 is fixed at (5,5) with a
pin, cell 1 is movable, both pins belong to one 2-pin net of weight 1. -/
def nvBugDb : NetlistDB :=
  { cells := [⟨⟨0, 1⟩, ⟨0, 1⟩, true⟩, ⟨⟨1, 1⟩, ⟨1, 1⟩, false⟩]
    positions := [⟨⟨5, 1⟩, ⟨5, 1⟩⟩, ⟨⟨1, 1⟩, ⟨1, 1⟩⟩]
    die_area := ⟨⟨⟨0, 1⟩, ⟨0, 1⟩⟩, ⟨⟨10, 1⟩, ⟨10, 1⟩⟩⟩
    nets := [⟨⟨1, 1⟩, [0, 1]⟩]
    pin_offsets := [⟨⟨0, 1⟩, ⟨0, 1⟩⟩, ⟨⟨0, 1⟩, ⟨0, 1⟩⟩]
    pin_to_cell := [0, 1] }

/-- Parameters for the fixed-cell frame test: one iteration, learning rate
0.003 (the spec default), threshold 2·10⁻⁴. -/
def nvBugParams : Placer.NesterovParams :=
  { max_iterations := 1
    initial_learning_rate := ⟨3, 1000⟩
    convergence_threshold := ⟨1, 5000⟩
    wa_gamma := ⟨4, 1⟩
    target_density := ⟨3, 5⟩
    electro_force_multiplier := ⟨20, 1⟩ }

/-- Gradient oracle for the fixed-cell frame test: gradient (1,0) at the
fixed cell 0, zero at cell 1, density cost 10⁶ (far above the convergence
bound, so the convergence branch cannot mask the update). -/
def nvBugGrad : List Point → List Point × Fr :=
  fun _ => ([⟨⟨1, 1⟩, ⟨0, 1⟩⟩, ⟨⟨0, 1⟩, ⟨0, 1⟩⟩], ⟨1000000, 1⟩)

section RouterTheorems

open Router Router.DenseGrid

/-- Updating the cost cache never changes any node's occupancy. -/
theorem occupancy_update_cache_at (g : DenseGrid) (idx layer j : ℕ) :
    ((g.update_cache_at idx layer).nodes.getD j GridNode.default).occupancy
      = (g.nodes.getD j GridNode.default).occupancy := by
  unfold Router.DenseGrid.update_cache_at
  simp only [List.getD_eq_getElem?_getD, List.getElem?_set]
  by_cases h : idx = j
  · subst h
    by_cases hl : idx < g.nodes.length
    · simp [hl, List.getD_eq_getElem?_getD]
    · simp [hl, List.getElem?_eq_none (le_of_not_lt hl)]
  · simp [h]

/-- Record updates of the node list leave the geometry fields unchanged,
so linear indexing is stable across wire updates. -/
theorem index_add_wire (g : DenseGrid) (c c' : GridCoord) :
    (g.add_wire c).index c' = g.index c' := rfl

/-- Removing a wire keeps the node-list length. -/
theorem nodes_length_remove_wire (g : DenseGrid) (c : GridCoord) :
    (g.remove_wire c).nodes.length = g.nodes.length := by
  simp [Router.DenseGrid.remove_wire, Router.DenseGrid.update_cache_at]

/-- Adding a wire keeps the node-list length. -/
theorem nodes_length_add_wire (g : DenseGrid) (c : GridCoord) :
    (g.add_wire c).nodes.length = g.nodes.length := by
  simp [Router.DenseGrid.add_wire, Router.DenseGrid.update_cache_at]

/-- Occupancy after add_wire: increment modulo 2^16 at the target node. -/
theorem occupancy_add_wire (g : DenseGrid) (c : GridCoord)
    (hlen : g.index c < g.nodes.length) :
    ((g.add_wire c).nodeAt c).occupancy = ((g.nodeAt c).occupancy + 1) % U16_MOD := by
  unfold Router.DenseGrid.nodeAt
  rw [index_add_wire]
  unfold Router.DenseGrid.add_wire
  rw [occupancy_update_cache_at]
  simp [List.getD_eq_getElem?_getD, List.getElem?_set, hlen]

/-- Occupancy after remove_wire: guarded decrement at the target node. -/
theorem occupancy_remove_wire (g : DenseGrid) (c : GridCoord)
    (hlen : g.index c < g.nodes.length) :
    ((g.remove_wire c).nodeAt c).occupancy
      = (if 0 < (g.nodeAt c).occupancy then (g.nodeAt c).occupancy - 1
         else (g.nodeAt c).occupancy) := by
  unfold Router.DenseGrid.nodeAt
  have hidx : (g.remove_wire c).index c = g.index c := rfl
  rw [hidx]
  unfold Router.DenseGrid.remove_wire
  rw [occupancy_update_cache_at]
  simp [List.getD_eq_getElem?_getD, List.getElem?_set, hlen]

end RouterTheorems

section ClaimTheoremsRouter

open Router Router.DenseGrid

/-- C9: DenseGrid::is_obstacle returns true for every coordinate outside
the grid bounds (x ≥ width, y ≥ height, or z ≥ layers), so out-of-grid
nodes are treated as blocked; and for every in-bounds coordinate the
linear node index stays below the node-array size width·height·layers. -/
theorem C9_out_of_bounds_is_obstacle (g : DenseGrid) (c : GridCoord) :
    (g.width ≤ c.x ∨ g.height ≤ c.y ∨ g.layers ≤ c.z → g.is_obstacle c = true) ∧
    (c.x < g.width → c.y < g.height → c.z < g.layers →
      g.index c < g.width * g.height * g.layers) := by
  constructor
  · intro h
    unfold Router.DenseGrid.is_obstacle
    rw [if_pos h]
  · intro hx hy hz
    unfold Router.DenseGrid.index
    calc c.z * g.width * g.height + c.y * g.width + c.x
        < c.z * g.width * g.height + c.y * g.width + g.width :=
          Nat.add_lt_add_left hx _
      _ = c.z * g.width * g.height + (c.y + 1) * g.width := by ring
      _ ≤ c.z * g.width * g.height + g.height * g.width :=
          Nat.add_le_add_left (Nat.mul_le_mul_right _ (Nat.succ_le_of_lt hy)) _
      _ = (c.z + 1) * (g.width * g.height) := by ring
      _ ≤ g.layers * (g.width * g.height) :=
          Nat.mul_le_mul_right _ (Nat.succ_le_of_lt hz)
      _ = g.width * g.height * g.layers := by ring

/-- Witness for C9 on a concrete 4×3×2 grid: the coordinate (7,0,0) is out
of bounds and read as an obstacle, and the in-bounds corner (3,2,1) indexes
inside the 24-element node array. -/
theorem C9_witness :
    (DenseGrid.new 4 3 2 1).is_obstacle ⟨7, 0, 0⟩ = true ∧
    (DenseGrid.new 4 3 2 1).index ⟨3, 2, 1⟩
      < (DenseGrid.new 4 3 2 1).width * (DenseGrid.new 4 3 2 1).height
        * (DenseGrid.new 4 3 2 1).layers :=
  ⟨(C9_out_of_bounds_is_obstacle (DenseGrid.new 4 3 2 1) ⟨7, 0, 0⟩).1 (by decide),
   (C9_out_of_bounds_is_obstacle (DenseGrid.new 4 3 2 1) ⟨3, 2, 1⟩).2
     (by decide) (by decide) (by decide)⟩

/-- C10 counterexample: at the u16 occupancy maximum 65535, add_wire wraps
the counter to 0 and the following remove_wire leaves it at 0, so the
add-then-remove round trip does not restore the prior occupancy. -/
theorem C10_counterexample :
    (((satGrid.add_wire ⟨0, 0, 0⟩).remove_wire ⟨0, 0, 0⟩).nodeAt ⟨0, 0, 0⟩).occupancy = 0 ∧
    (satGrid.nodeAt ⟨0, 0, 0⟩).occupancy = 65535 ∧
    (((satGrid.add_wire ⟨0, 0, 0⟩).remove_wire ⟨0, 0, 0⟩).nodeAt ⟨0, 0, 0⟩).occupancy
      ≠ (satGrid.nodeAt ⟨0, 0, 0⟩).occupancy := by
  refine ⟨by decide, by decide, by decide⟩

/-- C10 (amended): for every in-bounds coordinate, remove_wire on a node
with occupancy 0 leaves it at 0 (no underflow), and add_wire followed by
remove_wire restores the prior occupancy provided that occupancy is below
the u16 maximum 65535 (at 65535 the increment wraps to 0). -/
theorem C10_remove_wire_safe (g : DenseGrid) (c : GridCoord)
    (hlen : g.index c < g.nodes.length) :
    ((g.nodeAt c).occupancy = 0 → ((g.remove_wire c).nodeAt c).occupancy = 0) ∧
    ((g.nodeAt c).occupancy < 65535 →
      (((g.add_wire c).remove_wire c).nodeAt c).occupancy = (g.nodeAt c).occupancy) := by
  constructor
  · intro h0
    rw [occupancy_remove_wire g c hlen, h0]
    simp
  · intro hlt
    have hlen' : (g.add_wire c).index c < (g.add_wire c).nodes.length := by
      rw [index_add_wire, nodes_length_add_wire]; exact hlen
    rw [occupancy_remove_wire (g.add_wire c) c hlen', occupancy_add_wire g c hlen]
    have hmod : ((g.nodeAt c).occupancy + 1) % U16_MOD = (g.nodeAt c).occupancy + 1 :=
      Nat.mod_eq_of_lt (by unfold U16_MOD; omega)
    rw [hmod]
    simp

/-- Witness for C10 on a fresh 2×2×1 grid at (1,0,0): occupancy 0 is kept
by remove_wire, and an add/remove round trip restores occupancy 0. -/
theorem C10_witness :
    (((DenseGrid.new 2 2 1 1).remove_wire ⟨1, 0, 0⟩).nodeAt ⟨1, 0, 0⟩).occupancy = 0 ∧
    ((((DenseGrid.new 2 2 1 1).add_wire ⟨1, 0, 0⟩).remove_wire ⟨1, 0, 0⟩).nodeAt
        ⟨1, 0, 0⟩).occupancy = ((DenseGrid.new 2 2 1 1).nodeAt ⟨1, 0, 0⟩).occupancy :=
  ⟨(C10_remove_wire_safe (DenseGrid.new 2 2 1 1) ⟨1, 0, 0⟩ (by decide)).1 (by decide),
   (C10_remove_wire_safe (DenseGrid.new 2 2 1 1) ⟨1, 0, 0⟩ (by decide)).2 (by decide)⟩

/-- C6 counterexample: in the grid built by the global router (capacity 1
on every layer here), a layer-0 gcell is counted as congested as soon as
its occupancy exceeds config.capacity, and its capacity is config.capacity
(1), not 999999. -/
theorem C6_counterexample :
    (((grInitialGrid grTestConfig 2).add_wire ⟨0, 0, 0⟩).add_wire ⟨0, 0, 0⟩).is_congested
        ⟨0, 0, 0⟩ = true ∧
    (grInitialGrid grTestConfig 2).capacity ⟨0, 0, 0⟩ = 1 ∧
    (grInitialGrid grTestConfig 2).capacity ⟨0, 0, 0⟩ ≠ 999999 := by
  refine ⟨by decide, by decide, by decide⟩

/-- C6 (amended): the global router's coarse grid gives every layer,
including layer 0, the same capacity config.capacity; a gcell on any layer
is counted as congested exactly when its occupancy exceeds that capacity. -/
theorem C6_uniform_capacity (config : GlobalRoutingConfig) (numLayers : ℕ) (c : GridCoord)
    (h : c.z < (grInitialGrid config numLayers).layers) :
    (grInitialGrid config numLayers).capacity c = config.capacity ∧
    ∀ g : DenseGrid, (g.is_congested c = true ↔ g.capacity c < (g.nodeAt c).occupancy) := by
  constructor
  · unfold Router.grInitialGrid Router.DenseGrid.new at h ⊢
    simp only [Router.DenseGrid.capacity] at h ⊢
    simp [List.getD_eq_getElem?_getD, List.getElem?_replicate, h]
  · intro g
    simp [Router.DenseGrid.is_congested, Router.DenseGrid.capacity]

/-- Witness for C6 on a 2-layer instance at the layer-0 origin gcell. -/
theorem C6_witness :
    (grInitialGrid grTestConfig 2).capacity ⟨0, 0, 0⟩ = grTestConfig.capacity ∧
    ((DenseGrid.new 1 1 1 0).is_congested ⟨0, 0, 0⟩ = true ↔
      (DenseGrid.new 1 1 1 0).capacity ⟨0, 0, 0⟩
        < ((DenseGrid.new 1 1 1 0).nodeAt ⟨0, 0, 0⟩).occupancy) :=
  ⟨(C6_uniform_capacity grTestConfig 2 ⟨0, 0, 0⟩ (by decide)).1,
   (C6_uniform_capacity grTestConfig 2 ⟨0, 0, 0⟩ (by decide)).2 (DenseGrid.new 1 1 1 0)⟩

/-- C7 counterexample: at iteration 200 with 20 nets ripped, the code's
early-stop test fires even though 20 is not below the threshold 10 stated
by the claim — the source threshold is 50, not 10. -/
theorem C7_counterexample :
    grEarlyStop 200 20 = true ∧ ¬(20 < 10) := by
  refine ⟨by decide, by decide⟩

/-- C7 (amended): a global-router RRR iteration stops exactly when it
started with zero conflicts, or ripped no net, or the iteration counter
exceeds 100 and fewer than 50 nets were ripped in that iteration. -/
theorem C7_early_stop_condition (conflicts ripped iter : ℕ) :
    grIterationStops conflicts ripped iter = true ↔
      (conflicts = 0 ∨ ripped = 0 ∨ (100 < iter ∧ ripped < 50)) := by
  unfold Router.grIterationStops Router.grEarlyStop
  by_cases hc : conflicts = 0
  · simp [hc]
  · by_cases hr : ripped = 0
    · simp [hc, hr]
    · simp [hc, hr]

/-- C5 counterexample: a via step from layer 1 down to layer 0 contributes
1 scaled cost unit, not base_move_cost (1.0 · scale = 100): the layer-0
exception uses the raw literal 1.0 without the ×100 scale factor. -/
theorem C5_counterexample :
    stepMoveCost [LayerDirection.Horizontal, LayerDirection.Vertical]
        ⟨0, 0, 1⟩ ⟨0, 0, 0⟩ ⟨5, 5, 0⟩ = 1 ∧
    (1 : ℚ) ≠ 1 * 100 := by
  refine ⟨by norm_num [Router.stepMoveCost], by norm_num⟩

/-- C5 (amended): a step between adjacent nodes on different layers
contributes 10.0 · scale = 1000 scaled units, except that when either
endpoint is on layer 0 it contributes the raw constant 1.0 (one scaled
unit, i.e. 0.01 base-cost units — the scale factor is not applied), which
differs from base_move_cost (100 scaled units). -/
theorem C5_layer_change_cost (dirs : List LayerDirection) (p q e : GridCoord)
    (h : p.z ≠ q.z) :
    stepMoveCost dirs p q e = if p.z = 0 ∨ q.z = 0 then 1 else 1000 := by
  unfold Router.stepMoveCost
  have hne : ¬(p.z = 0 ∧ q.z = 0) := by
    rintro ⟨h1, h2⟩; exact h (h1.trans h2.symm)
  simp only [if_neg hne, if_pos h]
  split
  · rfl
  · norm_num

/-- Witness for C5: a step from layer 1 to layer 2 costs 1000 scaled units. -/
theorem C5_witness :
    (⟨0, 0, 1⟩ : GridCoord).z ≠ (⟨0, 0, 2⟩ : GridCoord).z ∧
    stepMoveCost [] ⟨0, 0, 1⟩ ⟨0, 0, 2⟩ ⟨0, 0, 0⟩
      = if (⟨0, 0, 1⟩ : GridCoord).z = 0 ∨ (⟨0, 0, 2⟩ : GridCoord).z = 0 then 1 else 1000 :=
  ⟨by decide, C5_layer_change_cost [] ⟨0, 0, 1⟩ ⟨0, 0, 2⟩ ⟨0, 0, 0⟩ (by decide)⟩

end ClaimTheoremsRouter

section ClaimTheoremsVerifierPlacer

/-- C8 counterexample: when both the shorts check and the opens check fail,
the verifier returns the two diagnostics joined with a semicolon — a
combination of several messages, not the single first error. -/
theorem C8_counterexample :
    Verifier.run (Except.error "A") (Except.error "B") = Except.error "A; B" ∧
    ("A; B" : String) ≠ "A" := by
  refine ⟨rfl, by decide⟩

/-- C8 (amended): the verifier returns the first check's message alone when
only it fails, the second check's message alone when only it fails, the
two messages joined with a semicolon separator when both fail, and success
when neither fails. -/
theorem C8_run_joins_messages (a b : String) :
    Verifier.run (Except.error a) (Except.ok ()) = Except.error a ∧
    Verifier.run (Except.ok ()) (Except.error b) = Except.error b ∧
    Verifier.run (Except.error a) (Except.error b)
      = Except.error (a ++ "; " ++ b) ∧
    Verifier.run (Except.ok ()) (Except.ok ()) = Except.ok () := by
  refine ⟨?_, ?_, ?_, rfl⟩ <;>
    simp [Verifier.run, String.intercalate, String.intercalate.go]

/-- C4 counterexample: at iteration k = 200 with zero average displacement
(below the default threshold 2·10⁻⁴) and zero density overflow, the claim
says the convergence branch is taken (100 < k ≤ 500), but the code's test
requires k > 500 and does not take it. -/
theorem C4_counterexample :
    Placer.convergenceTaken 200 0 (1/5000) 0 = false ∧
    (100 < 200 ∧ (0 : ℚ) < 1/5000 ∧ (0 : ℚ) < 50000) := by
  refine ⟨by norm_num [Placer.convergenceTaken], by norm_num, by norm_num, by norm_num⟩

/-- C4 (amended): the Nesterov convergence branch is taken exactly when the
iteration counter k exceeds 500, the average Manhattan displacement between
successive x iterates is below convergence_threshold, and the density
overflow is below 5·10⁴. -/
theorem C4_convergence_condition (k : ℕ) (avg_disp threshold density_cost : ℚ) :
    Placer.convergenceTaken k avg_disp threshold density_cost = true ↔
      (500 < k ∧ avg_disp < threshold ∧ density_cost < 50000) := by
  simp [Placer.convergenceTaken, and_assoc]

end ClaimTheoremsVerifierPlacer

section AbacusTheorems

/-- Writing one point into a position list leaves every slot unchanged or
equal to the written point. -/
theorem getD_set_or (ps : List Point) (j : ℕ) (pt : Point) (i : ℕ) :
    (ps.set j pt).getD i default = ps.getD i default ∨
    (ps.set j pt).getD i default = pt := by
  simp only [List.getD_eq_getElem?_getD, List.getElem?_set]
  by_cases h : j = i
  · subst h
    by_cases hl : j < ps.length
    · simp [hl]
    · simp [hl, List.getElem?_eq_none (le_of_not_lt hl)]
  · simp [h]

/-- Writing at one index leaves the others unchanged. -/
theorem getD_set_ne (ps : List Point) (j : ℕ) (pt : Point) (i : ℕ) (h : j ≠ i) :
    (ps.set j pt).getD i default = ps.getD i default := by
  simp [List.getD_eq_getElem?_getD, List.getElem?_set, h]

/-- Fold combinator: when every step either preserves a slot or
establishes P on it, so does the whole fold. -/
theorem foldl_getD_or {β : Type} (P : Point → Prop) (step : List Point → β → List Point) :
    ∀ l : List β,
      (∀ b ∈ l, ∀ (ps : List Point) (i : ℕ),
        (step ps b).getD i default = ps.getD i default ∨ P ((step ps b).getD i default)) →
      ∀ (ps : List Point) (i : ℕ),
        (l.foldl step ps).getD i default = ps.getD i default ∨
        P ((l.foldl step ps).getD i default) := by
  intro l
  induction l with
  | nil => intro _ ps i; left; rfl
  | cons b rest ih =>
    intro hstep ps i
    rcases ih (fun b2 hb2 ps2 i2 => hstep b2 (List.mem_cons_of_mem _ hb2) ps2 i2)
        (step ps b) i with h | h
    · rcases hstep b (List.mem_cons_self b rest) ps i with h2 | h2
      · left; rw [List.foldl_cons, h, h2]
      · right; rw [List.foldl_cons, h]; exact h2
    · right; rw [List.foldl_cons]; exact h

/-- Every slot the in-cluster layout touches gets the row's y. -/
theorem layoutGo_getD_or (min_x row_y : Fr) (cells : List CellData)
    (idxs : List ℕ) (i : ℕ) :
    ∀ (cx : Fr) (ps : List Point),
      (Abacus.layoutGo min_x row_y cells idxs cx ps).getD i default = ps.getD i default ∨
      ((Abacus.layoutGo min_x row_y cells idxs cx ps).getD i default).y = row_y := by
  induction idxs with
  | nil => intro cx ps; left; rfl
  | cons idx rest ih =>
    intro cx ps
    simp only [Abacus.layoutGo]
    rcases ih
        (Fr.add (Fr.fmax cx min_x) (Fr.add (cells.getD idx default).width Abacus.CELL_PADDING))
        (ps.set idx ⟨Fr.fmax cx min_x, row_y⟩) with h | h
    · rcases getD_set_or ps idx ⟨Fr.fmax cx min_x, row_y⟩ i with h2 | h2
      · left; rw [h, h2]
      · right; rw [h, h2]
    · right; exact h

/-- Every slot packSubRow touches gets the row's y. -/
theorem packSubRow_getD_or (cells : List CellData) (row_y : Fr) (sub : Abacus.SubRow)
    (ps : List Point) (i : ℕ) :
    (Abacus.packSubRow cells row_y sub ps).getD i default = ps.getD i default ∨
    ((Abacus.packSubRow cells row_y sub ps).getD i default).y = row_y := by
  unfold Abacus.packSubRow
  split
  · left; rfl
  · exact foldl_getD_or (fun pt => pt.y = row_y)
      (fun ps2 (cl : Abacus.Cluster) =>
        Abacus.layoutGo sub.min_x row_y cells cl.member_cells cl.x ps2) _
      (fun (cl : Abacus.Cluster) _ ps2 j =>
        layoutGo_getD_or sub.min_x row_y cells cl.member_cells j cl.x ps2)
      ps i

/-- Every slot packRows touches gets the y of one of the first num_rows
rows. -/
theorem packRows_getD_or (cells : List CellData) (die_min_y rh : Fr) (n : ℕ)
    (rows : List (List Abacus.SubRow)) (ps : List Point) (i : ℕ) :
    (Abacus.packRows cells die_min_y rh n rows ps).getD i default = ps.getD i default ∨
    ∃ k : ℕ, k < n ∧
      ((Abacus.packRows cells die_min_y rh n rows ps).getD i default).y
        = Fr.add die_min_y (Fr.mul (Fr.ofInt (k : ℤ)) rh) := by
  unfold Abacus.packRows
  refine foldl_getD_or
    (fun pt => ∃ k : ℕ, k < n ∧ pt.y = Fr.add die_min_y (Fr.mul (Fr.ofInt (k : ℤ)) rh))
    _ (List.range n) ?_ ps i
  intro r hr ps2 j
  have hr' : r < n := List.mem_range.mp hr
  rcases foldl_getD_or
      (fun pt => pt.y = Fr.add die_min_y (Fr.mul (Fr.ofInt (r : ℤ)) rh))
      (fun ps3 sub => Abacus.packSubRow cells (Fr.add die_min_y (Fr.mul (Fr.ofInt (r : ℤ)) rh)) sub ps3)
      (rows.getD r [])
      (fun sub _ ps3 j2 => packSubRow_getD_or cells _ sub ps3 j2) ps2 j with h | h
  · left; exact h
  · right; exact ⟨r, hr', h⟩

/-- Membership is invariant under stable insertion. -/
theorem mem_insertLe {α : Type} (le : α → α → Bool) (x a : α) :
    ∀ l : List α, a ∈ insertLe le x l ↔ a = x ∨ a ∈ l := by
  intro l
  induction l with
  | nil => simp [insertLe]
  | cons y ys ih =>
    by_cases h : le x y
    · simp [insertLe, h]
    · simp only [insertLe, h, Bool.false_eq_true, if_false, List.mem_cons, ih]
      tauto

/-- Membership is invariant under the stable sort. -/
theorem mem_sortByLe {α : Type} (le : α → α → Bool) (a : α) :
    ∀ l : List α, a ∈ sortByLe le l ↔ a ∈ l := by
  intro l
  induction l with
  | nil => simp [sortByLe]
  | cons x xs ih => simp [sortByLe, mem_insertLe, ih]

/-- The macro pre-legalisation does not move cells outside its macro
list. -/
theorem legalizeMacros_getD_not_mem (cells : List CellData) (die : Rect) (rh : Fr)
    (i : ℕ) :
    ∀ (macros : List ℕ), i ∉ macros → ∀ (ps : List Point) (rects : List Rect),
      ((Abacus.legalizeMacros cells die rh macros ps rects).1).getD i default
        = ps.getD i default := by
  intro macros
  induction macros with
  | nil => intro _ ps rects; rfl
  | cons m ms ih =>
    intro hni ps rects
    have hne : m ≠ i := fun h => hni (h ▸ List.mem_cons_self m ms)
    have hnm : i ∉ ms := fun h => hni (List.mem_cons_of_mem _ h)
    simp only [Abacus.legalizeMacros, List.foldl_cons] at *
    rw [ih hnm]
    exact getD_set_ne ps m _ i hne

/-- A cell that is not a macro keeps its position through the macro
phase. -/
theorem macroPhase_getD_not_macro (db : NetlistDB) (rh : Fr) (i : ℕ)
    (hmac : Abacus.isMacroH rh (db.cells.getD i default).height = false) :
    ((Abacus.macroPhase db rh).1).getD i default = db.positions.getD i default := by
  unfold Abacus.macroPhase
  apply legalizeMacros_getD_not_mem
  intro hmem
  have hmem2 : i ∈ Abacus.movableMacroList db rh := by
    have := (mem_sortByLe _ i (Abacus.movableMacroList db rh)).mp hmem
    exact this
  have := List.mem_filter.mp hmem2
  have hp := this.2
  simp only [Bool.and_eq_true] at hp
  rw [hmac] at hp
  exact absurd hp.2 (by simp)

/-- C2 (amended): after legalisation, every movable standard cell (not
fixed, height ≤ 1.5·row_height) either keeps its input position —
which happens exactly when no subrow within the ±50-row search band could
host it and the fallback row had no subrow — or sits at
y = die.min.y + k·row_height for an integer 0 ≤ k < num_rows. -/
theorem C2_std_cell_row_aligned (db : NetlistDB) (i : ℕ)
    (_hfix : (db.cells.getD i default).is_fixed = false)
    (hmac : Abacus.isMacroH (Abacus.rowHeightOf db.cells)
      (db.cells.getD i default).height = false) :
    (Abacus.legalize db).positions.getD i default = db.positions.getD i default ∨
    ∃ k : ℕ, k < Abacus.numRowsOf db ∧
      ((Abacus.legalize db).positions.getD i default).y
        = Fr.add db.die_area.min.y
            (Fr.mul (Fr.ofInt (k : ℤ)) (Abacus.rowHeightOf db.cells)) := by
  unfold Abacus.legalize
  by_cases h0 : Abacus.numRowsOf db = 0
  · simp only [h0, if_pos rfl]
    left; rfl
  · simp only [h0, if_false]
    rcases packRows_getD_or db.cells db.die_area.min.y (Abacus.rowHeightOf db.cells)
        (Abacus.numRowsOf db)
        (Abacus.assignedRows db (Abacus.rowHeightOf db.cells) (Abacus.numRowsOf db))
        ((Abacus.macroPhase db (Abacus.rowHeightOf db.cells)).1) i with h | h
    · left
      rw [h]
      exact macroPhase_getD_not_macro db (Abacus.rowHeightOf db.cells) i hmac
    · right; exact h

/-- Witness for C2 on the S5 scenario: standard cell 0 is placed on a row
(the second disjunct holds; cell 0 ends at y = 0 + 0·1). -/
theorem C2_witness :
    (Abacus.legalize abacusS5Db).positions.getD 0 default
        = abacusS5Db.positions.getD 0 default ∨
    ∃ k : ℕ, k < Abacus.numRowsOf abacusS5Db ∧
      ((Abacus.legalize abacusS5Db).positions.getD 0 default).y
        = Fr.add abacusS5Db.die_area.min.y
            (Fr.mul (Fr.ofInt (k : ℤ)) (Abacus.rowHeightOf abacusS5Db.cells)) :=
  C2_std_cell_row_aligned abacusS5Db 0 (by decide) (by decide)

end AbacusTheorems

section FinalClaimTheorems

/-- C2 counterexample: on a die whose single row is fully blocked, the
movable standard cell is recorded into no subrow, legalize leaves it at
its input position (2, 0.3), and 0.3 is not die.min.y + k·row_height for
any integer k ≥ 0 (row height 1, die.min.y = 0). -/
theorem C2_counterexample :
    (abacusBlockedDb.cells.getD 1 default).is_fixed = false ∧
    Abacus.isMacroH (Abacus.rowHeightOf abacusBlockedDb.cells)
      (abacusBlockedDb.cells.getD 1 default).height = false ∧
    (Abacus.legalize abacusBlockedDb).positions.getD 1 default = ⟨⟨2, 1⟩, ⟨3, 10⟩⟩ ∧
    ∀ k : ℤ, 0 ≤ k →
      Fr.toQ ((Abacus.legalize abacusBlockedDb).positions.getD 1 default).y ≠
        Fr.toQ abacusBlockedDb.die_area.min.y
          + (k : ℚ) * Fr.toQ (Abacus.rowHeightOf abacusBlockedDb.cells) := by
  have h1 : (Abacus.legalize abacusBlockedDb).positions.getD 1 default
      = ⟨⟨2, 1⟩, ⟨3, 10⟩⟩ := by decide
  have h2 : Abacus.rowHeightOf abacusBlockedDb.cells = ⟨1000, 1000⟩ := by decide
  refine ⟨by decide, by decide, h1, ?_⟩
  intro k hk heq
  rw [h1, h2] at heq
  have heq2 : (3 : ℚ) / 10 = (k : ℚ) := by
    rw [show Fr.toQ ⟨1000, 1000⟩ = 1 by norm_num [Fr.toQ],
        show Fr.toQ abacusBlockedDb.die_area.min.y = 0 by norm_num [Fr.toQ, abacusBlockedDb],
        show Fr.toQ (⟨⟨2, 1⟩, ⟨3, 10⟩⟩ : Point).y = 3 / 10 by norm_num [Fr.toQ]] at heq
    linarith [heq]
  rcases (by omega : k = 0 ∨ 1 ≤ k) with rfl | hk1
  · norm_num at heq2
  · have : (1 : ℚ) ≤ (k : ℚ) := by exact_mod_cast hk1
    linarith [heq2]

/-- C3 counterexample: on the S5 input the packed x coordinates are none
of the claimed 0.00, 2.05, 4.10 — no cell receives any of those values. -/
theorem C3_counterexample :
    (Fr.beq ((Abacus.legalize abacusS5Db).positions.getD 0 default).x ⟨0, 1⟩ = false ∧
     Fr.beq ((Abacus.legalize abacusS5Db).positions.getD 0 default).x ⟨41, 20⟩ = false ∧
     Fr.beq ((Abacus.legalize abacusS5Db).positions.getD 0 default).x ⟨41, 10⟩ = false) ∧
    (Fr.beq ((Abacus.legalize abacusS5Db).positions.getD 1 default).x ⟨0, 1⟩ = false ∧
     Fr.beq ((Abacus.legalize abacusS5Db).positions.getD 1 default).x ⟨41, 20⟩ = false ∧
     Fr.beq ((Abacus.legalize abacusS5Db).positions.getD 1 default).x ⟨41, 10⟩ = false) ∧
    (Fr.beq ((Abacus.legalize abacusS5Db).positions.getD 2 default).x ⟨0, 1⟩ = false ∧
     Fr.beq ((Abacus.legalize abacusS5Db).positions.getD 2 default).x ⟨41, 20⟩ = false ∧
     Fr.beq ((Abacus.legalize abacusS5Db).positions.getD 2 default).x ⟨41, 10⟩ = false) := by
  decide

/-- C3 (amended): on the S5 input (three width-2 cells with padding 0.05,
ideal x = 3, subrow [0, 7]) the code's packing — collapse to a single
cluster at x = 0.95, left pass (no effect), right pass shifting to
x = 7 − 6.15 = 0.85 — assigns final x coordinates 0.85, 2.90, 4.95, all
at row y = 0. -/
theorem C3_packed_positions :
    Fr.beq ((Abacus.legalize abacusS5Db).positions.getD 0 default).x ⟨17, 20⟩ = true ∧
    Fr.beq ((Abacus.legalize abacusS5Db).positions.getD 1 default).x ⟨29, 10⟩ = true ∧
    Fr.beq ((Abacus.legalize abacusS5Db).positions.getD 2 default).x ⟨99, 20⟩ = true ∧
    Fr.beq ((Abacus.legalize abacusS5Db).positions.getD 0 default).y ⟨0, 1⟩ = true ∧
    Fr.beq ((Abacus.legalize abacusS5Db).positions.getD 1 default).y ⟨0, 1⟩ = true ∧
    Fr.beq ((Abacus.legalize abacusS5Db).positions.getD 2 default).y ⟨0, 1⟩ = true := by
  decide

/-- C1: the optimiser does not keep fixed cells in place. Cell 0 is fixed
at (5, 5); after one iteration with gradient (1, 0) at that cell (the
oracle standing for compute_gradients) and learning rate 0.003, its
stored position has moved to x = 4.997: the update x_next = y − g·step is
applied to every cell, with only the y_k reset and the clamping gated on
is_fixed. The last conjunct shows the gradient at a fixed cell is not held
at zero: compute_wa_gradient accumulates a non-zero x gradient onto fixed
cell 0 for the concrete 2-pin net (exp oracle constantly 1). -/
theorem C1_fixed_cell_moves :
    (nvBugDb.cells.getD 0 default).is_fixed = true ∧
    Fr.beq
      ((Placer.optimize nvBugParams nvBugDb nvBugGrad (fun _ => ⟨0, 1⟩)
        (fun _ => (⟨0, 1⟩, ⟨0, 1⟩))).positions.getD 0 default).x
      (nvBugDb.positions.getD 0 default).x = false ∧
    Fr.beq
      ((Placer.compute_wa_gradient nvBugDb nvBugDb.positions ⟨4, 1⟩ (fun _ => ⟨1, 1⟩)
        [default, default]).1.getD 0 default).x ⟨0, 1⟩ = false := by
  refine ⟨by decide, by decide, by decide⟩

end FinalClaimTheorems
